import Mathlib

/-!
# bgv/httputils, package `router`

A shallow embedding of `router/router.go`.

* Pointers (`*http.Request`, `*httprouter.Router`) are natural numbers: only their
  identity matters to the code.
* The package-level map `ctxts` is a function from request identities to
  `Option context.Context`; `none` is the nil interface a Go map lookup yields for an
  absent key.
* A handler is arbitrary Go code, so it is a state transformer on the `World` it can
  touch, together with the way it terminates (normal return or panic).
* A Go panic is an explicit result (`Outcome.panicked`, `Except.error`).
-/

namespace router

/-- Identity of a `*http.Request`, the key type of `ctxts`. -/
abbrev Request := Nat

/-- The struct `httprouter.Param`: one parameter extracted from the URL. -/
structure httprouter.Param where
  Key : String
  Value : String
deriving DecidableEq, Repr

/-- The slice type `httprouter.Params`, in extraction order. -/
abbrev httprouter.Params := List httprouter.Param

/-- The unexported key type `type param string` under which parameters are stored. -/
structure param where
  name : String
deriving DecidableEq, Repr

/-- The `interface{}` values that `Value` can yield for a `param` key: nil, or the
string stored by `handle` (only this package can store under the unexported type). -/
inductive Any where
  | nil
  | str (s : String)
deriving DecidableEq, Repr

/-- Values of `context.Context` reachable from this package: `context.Background()`,
`context.WithCancel(parent)` and `context.WithValue(parent, key, val)`. The
cancellation flag itself is not represented; nothing in the package reads it. -/
inductive context.Context where
  | Background
  | WithCancel (parent : context.Context)
  | WithValue (parent : context.Context) (key : param) (val : Any)
deriving DecidableEq, Repr

/-- The method `ctx.Value(key)`: the innermost binding of `key`, nil when there is
none. -/
def context.Context.Value : context.Context → param → Any
  | .Background, _ => Any.nil
  | .WithCancel parent, k => parent.Value k
  | .WithValue parent key val, k => if key = k then val else parent.Value k

/-- Run-time panics the package can raise, and panics of user handlers. -/
inductive Panic where
  | nilDereference
  | typeAssertion
  | custom (msg : String)
deriving DecidableEq, Repr

/-- How a call terminates. -/
inductive Outcome where
  | returned
  | panicked (p : Panic)
deriving DecidableEq, Repr

/-- Go map assignment `m[r] = c`. -/
def mapSet (m : Request → Option context.Context) (r : Request) (c : context.Context) :
    Request → Option context.Context :=
  fun q => if q = r then some c else m q

/-- Go builtin `delete(m, r)`. -/
def mapDelete (m : Request → Option context.Context) (r : Request) :
    Request → Option context.Context :=
  fun q => if q = r then none else m q

/-- Everything a handler can read or write: the package-level map `ctxts`, the field
`URL.Path` of every request object, and the rest of the program state `env` (response
writers, variables captured by closures, the file system). On a single goroutine the
`mutex` calls are balanced no-ops and are left out here; they are explicit in the
interleaving model (`Sys`). -/
structure World (σ : Type) where
  ctxts : Request → Option context.Context
  path : Request → String
  env : σ

/-- A `http.HandlerFunc`: `func(w http.ResponseWriter, r *http.Request)`. -/
abbrev HandlerFunc (σ : Type) := Request → World σ → World σ × Outcome

/-- A `httprouter.Handle`: a handler that also receives the extracted parameters. -/
abbrev httprouter.Handle (σ : Type) :=
  Request → httprouter.Params → World σ → World σ × Outcome

/-- `Context` will return the context for the request (`ctxts[r]`, nil if absent). -/
def Context {σ : Type} (w : World σ) (r : Request) : Option context.Context :=
  w.ctxts r

/-- `Param` returns param p for the context: `ctx.Value(param(p)).(string)`. Calling
`Value` on a nil context and asserting a nil value to `string` both panic. -/
def Param (ctx : Option context.Context) (p : String) : Except Panic String :=
  match ctx with
  | none => .error .nilDereference
  | some c =>
    match c.Value ⟨p⟩ with
    | .nil => .error .typeAssertion
    | .str s => .ok s

/-- Lines 33 to 38 of `handle`: a cancellable background context extended with one
`WithValue` per extracted parameter, in order. -/
def withParams (params : httprouter.Params) : context.Context :=
  params.foldl (fun ctx p => context.Context.WithValue ctx ⟨p.Key⟩ (.str p.Value))
    (context.Context.WithCancel context.Context.Background)

/-- `handle` turns a `HandlerFunc` into a `httprouter.Handle`: it stores the context under
`r`, runs the handler, and deletes the entry once the handler has returned. The
`delete` is an ordinary statement after the call, so a panic of the handler skips it
(only `cancel` is deferred). -/
def handle {σ : Type} (handlerFunc : HandlerFunc σ) : httprouter.Handle σ :=
  fun r params w =>
    let ctx := withParams params
    let w1 : World σ := { w with ctxts := mapSet w.ctxts r ctx }
    match handlerFunc r w1 with
    | (w2, .returned) => ({ w2 with ctxts := mapDelete w2.ctxts r }, .returned)
    | (w2, .panicked p) => (w2, .panicked p)

/-- The struct `Router`: a pointer to the shared `httprouter.Router` and the prefix. Its
fields are never assigned after construction, so a `*Router` is modelled by its
value. -/
structure Router where
  rtr : Nat
  prefix_ : String
deriving DecidableEq, Repr

/-- One registration held by a path matcher. -/
structure Route (σ : Type) where
  method : String
  pattern : String
  handle : httprouter.Handle σ

/-- Modelled from the spec: the external `httprouter.Router` objects. Each holds the
(method, full path pattern, handler) triples registered with it, in registration
order; `next` is the first unallocated address. Route matching is the matcher's own
contract and is not represented. -/
structure Matchers (σ : Type) where
  next : Nat
  table : Nat → List (Route σ)

/-- Modelled from the spec: the acceptance check a path matcher applies at registration
time (`RouteConflict`). Given the method, the pattern and the triples the matcher
already holds it yields `none` to accept, or the panic with which the registration
fails. Which patterns conflict is the matcher's own contract, so the check is a
parameter of every registration. -/
abbrev Rule (σ : Type) := String → String → List (Route σ) → Option Panic

/-- Modelled from the spec: `register(method, pathPattern, handler)` of the path matcher
at address `rtr`. When the matcher's check rejects the pattern the call panics and
nothing is registered; otherwise one triple is added. -/
def httprouter.Router.Handle {σ : Type} (rule : Rule σ) (m : Matchers σ) (rtr : Nat)
    (method path : String) (h : httprouter.Handle σ) : Matchers σ × Outcome :=
  match rule method path (m.table rtr) with
  | some e => (m, .panicked e)
  | none =>
    ({ m with
        table := fun q => if q = rtr then m.table q ++ [⟨method, path, h⟩] else m.table q },
     .returned)

/-- Modelled from the spec: `GET` is the matcher's registration for method GET. -/
def httprouter.Router.GET {σ : Type} (rule : Rule σ) (m : Matchers σ) (rtr : Nat)
    (path : String) (h : httprouter.Handle σ) : Matchers σ × Outcome :=
  httprouter.Router.Handle rule m rtr "GET" path h

/-- Modelled from the spec: `HEAD` is the matcher's registration for method HEAD. -/
def httprouter.Router.HEAD {σ : Type} (rule : Rule σ) (m : Matchers σ) (rtr : Nat)
    (path : String) (h : httprouter.Handle σ) : Matchers σ × Outcome :=
  httprouter.Router.Handle rule m rtr "HEAD" path h

/-- Modelled from the spec: `OPTIONS` is the matcher's registration for method OPTIONS. -/
def httprouter.Router.OPTIONS {σ : Type} (rule : Rule σ) (m : Matchers σ) (rtr : Nat)
    (path : String) (h : httprouter.Handle σ) : Matchers σ × Outcome :=
  httprouter.Router.Handle rule m rtr "OPTIONS" path h

/-- Modelled from the spec: `POST` is the matcher's registration for method POST. -/
def httprouter.Router.POST {σ : Type} (rule : Rule σ) (m : Matchers σ) (rtr : Nat)
    (path : String) (h : httprouter.Handle σ) : Matchers σ × Outcome :=
  httprouter.Router.Handle rule m rtr "POST" path h

/-- Modelled from the spec: `PUT` is the matcher's registration for method PUT. -/
def httprouter.Router.PUT {σ : Type} (rule : Rule σ) (m : Matchers σ) (rtr : Nat)
    (path : String) (h : httprouter.Handle σ) : Matchers σ × Outcome :=
  httprouter.Router.Handle rule m rtr "PUT" path h

/-- Modelled from the spec: `PATCH` is the matcher's registration for method PATCH. -/
def httprouter.Router.PATCH {σ : Type} (rule : Rule σ) (m : Matchers σ) (rtr : Nat)
    (path : String) (h : httprouter.Handle σ) : Matchers σ × Outcome :=
  httprouter.Router.Handle rule m rtr "PATCH" path h

/-- Modelled from the spec: `DELETE` is the matcher's registration for method DELETE. -/
def httprouter.Router.DELETE {σ : Type} (rule : Rule σ) (m : Matchers σ) (rtr : Nat)
    (path : String) (h : httprouter.Handle σ) : Matchers σ × Outcome :=
  httprouter.Router.Handle rule m rtr "DELETE" path h

/-- Modelled from the spec: `httprouter.New()` allocates an empty path matcher. -/
def httprouter.New {σ : Type} (m : Matchers σ) : Matchers σ × Nat :=
  ({ next := m.next + 1, table := fun q => if q = m.next then [] else m.table q }, m.next)

/-- `New` returns a new `Router`. -/
def New {σ : Type} (m : Matchers σ) : Matchers σ × Router :=
  ((httprouter.New m).1, { rtr := (httprouter.New m).2, prefix_ := "" })

/-- `WithPrefix` returns a router that prefixes all registered routes with `pfx`. -/
def Router.WithPrefix (r : Router) (pfx : String) : Router :=
  { rtr := r.rtr, prefix_ := r.prefix_ ++ pfx }

/-- `Del` registers a new DELETE route. A panic of the matcher is not recovered: it is
the outcome of the call. The same holds for the six methods below. -/
def Router.Del {σ : Type} (rule : Rule σ) (r : Router) (path : String)
    (h : HandlerFunc σ) (m : Matchers σ) : Matchers σ × Outcome :=
  httprouter.Router.DELETE rule m r.rtr (r.prefix_ ++ path) (handle h)

/-- `Get` registers a new GET route. -/
def Router.Get {σ : Type} (rule : Rule σ) (r : Router) (path : String)
    (h : HandlerFunc σ) (m : Matchers σ) : Matchers σ × Outcome :=
  httprouter.Router.GET rule m r.rtr (r.prefix_ ++ path) (handle h)

/-- `Head` registers a new HEAD route. -/
def Router.Head {σ : Type} (rule : Rule σ) (r : Router) (path : String)
    (h : HandlerFunc σ) (m : Matchers σ) : Matchers σ × Outcome :=
  httprouter.Router.HEAD rule m r.rtr (r.prefix_ ++ path) (handle h)

/-- `Options` registers a new OPTIONS route. -/
def Router.Options {σ : Type} (rule : Rule σ) (r : Router) (path : String)
    (h : HandlerFunc σ) (m : Matchers σ) : Matchers σ × Outcome :=
  httprouter.Router.OPTIONS rule m r.rtr (r.prefix_ ++ path) (handle h)

/-- `Patch` registers a new PATCH route. -/
def Router.Patch {σ : Type} (rule : Rule σ) (r : Router) (path : String)
    (h : HandlerFunc σ) (m : Matchers σ) : Matchers σ × Outcome :=
  httprouter.Router.PATCH rule m r.rtr (r.prefix_ ++ path) (handle h)

/-- `Post` registers a new POST route. -/
def Router.Post {σ : Type} (rule : Rule σ) (r : Router) (path : String)
    (h : HandlerFunc σ) (m : Matchers σ) : Matchers σ × Outcome :=
  httprouter.Router.POST rule m r.rtr (r.prefix_ ++ path) (handle h)

/-- `Put` registers a new PUT route. -/
def Router.Put {σ : Type} (rule : Rule σ) (r : Router) (path : String)
    (h : HandlerFunc σ) (m : Matchers σ) : Matchers σ × Outcome :=
  httprouter.Router.PUT rule m r.rtr (r.prefix_ ++ path) (handle h)

/-- `FileServe` returns a new `http.HandlerFunc` that serves files from `dir`. The
file server `http.FileServer(http.Dir(dir))` is external and is the parameter `fs`.
The right-hand side `Param(Context(req), "filepath")` is evaluated first; when it
panics neither the assignment to `req.URL.Path` nor `fs.ServeHTTP` is reached. The
receiver is not used by the body. -/
def Router.FileServe {σ : Type} (_r : Router) (fs : String → HandlerFunc σ) (dir : String) :
    HandlerFunc σ :=
  fun req w =>
    match Param (Context w req) "filepath" with
    | .error p => (w, .panicked p)
    | .ok v => fs dir req { w with path := fun q => if q = req then v else w.path q }

/-- The state of `mutex`, a `sync.RWMutex`: whether it is held exclusively, and by how
many readers it is held shared. -/
structure RWMutex where
  writer : Bool
  readers : Nat
deriving DecidableEq, Repr

/-- The statement a goroutine executes next. `lockInsert`, `insert`, `unlockInsert` are
lines 40 to 42 of `handle`; `handler` is line 44, the handler between two calls of
`Context`; `rlocked` and `runlock` are inside `Context`, before the read of line 20
and before the deferred `RUnlock`; `lockDelete`, `delete`, `unlockDelete` are lines
46 to 48; `done` is after the wrapper. -/
inductive PC where
  | lockInsert
  | insert
  | unlockInsert
  | handler
  | rlocked
  | runlock
  | lockDelete
  | delete
  | unlockDelete
  | done
deriving DecidableEq, Repr

/-- One goroutine serving a request: the request and its extracted parameters, what its
handler does (`script`: the requests whose `Context` it still looks up, in order;
`panics`: whether it panics after that instead of returning), where it stands, and
what its calls of `Context` have returned so far. -/
structure Goroutine where
  req : Request
  params : httprouter.Params
  script : List Request
  panics : Bool
  pc : PC
  seen : List (Request × Option context.Context)
deriving DecidableEq, Repr

/-- The next atomic step of a goroutine, or `none` when it is blocked on the mutex or has
finished. `Lock` needs the mutex free, `RLock` needs it not held exclusively. A panic
of the handler leaves the wrapper at once (only `cancel` is deferred). -/
def Goroutine.next (g : Goroutine) (mu : RWMutex) (m : Request → Option context.Context) :
    Option (Goroutine × RWMutex × (Request → Option context.Context)) :=
  match g.pc with
  | .lockInsert =>
    if mu.writer = false ∧ mu.readers = 0 then
      some ({ g with pc := .insert }, { mu with writer := true }, m)
    else none
  | .insert => some ({ g with pc := .unlockInsert }, mu, mapSet m g.req (withParams g.params))
  | .unlockInsert => some ({ g with pc := .handler }, { mu with writer := false }, m)
  | .handler =>
    match g.script with
    | [] => some ({ g with pc := if g.panics then .done else .lockDelete }, mu, m)
    | _ :: _ =>
      if mu.writer = false then
        some ({ g with pc := .rlocked }, { mu with readers := mu.readers + 1 }, m)
      else none
  | .rlocked =>
    match g.script with
    | [] => none
    | q :: rest =>
      some ({ g with pc := .runlock, script := rest, seen := g.seen ++ [(q, m q)] }, mu, m)
  | .runlock => some ({ g with pc := .handler }, { mu with readers := mu.readers - 1 }, m)
  | .lockDelete =>
    if mu.writer = false ∧ mu.readers = 0 then
      some ({ g with pc := .delete }, { mu with writer := true }, m)
    else none
  | .delete => some ({ g with pc := .unlockDelete }, mu, mapDelete m g.req)
  | .unlockDelete => some ({ g with pc := .done }, { mu with writer := false }, m)
  | .done => none

/-- A world with an empty store in which every request has path `/`. -/
def sampleWorld : World String :=
  ⟨fun _ => none, fun _ => "/", ""⟩

/-- A handler that copies the path of its request to `env` and returns. -/
def recordPath : HandlerFunc String :=
  fun q w => ({ w with env := w.path q }, .returned)

/-- A handler that panics at once. -/
def panicking : HandlerFunc String :=
  fun _ w => (w, .panicked (.custom "boom"))

/-- A stand-in file server: it writes `dir` followed by the request's path to `env`. -/
def sampleFS : String → HandlerFunc String :=
  fun dir q w => ({ w with env := dir ++ w.path q }, .returned)

/-- A store that binds requests 3 and 4 to the background context. -/
def staleStore : Request → Option context.Context :=
  fun q => if q = 3 ∨ q = 4 then some context.Context.Background else none

/-- The world in which request 5 is bound to the parameters of `/static/*filepath`
requested as `/static/img/a.png`. -/
def staticWorld : World String :=
  ⟨mapSet (fun _ => none) 5 (withParams [⟨"filepath", "/img/a.png"⟩]), fun _ => "/", ""⟩

/-- A handler like the one of `TestRouterParam`: it reads the parameter `name` of its
request and writes it to `env`; a panic of `Param` is not recovered. -/
def recordParam (name : String) : HandlerFunc String :=
  fun q w =>
    match Param (Context w q) name with
    | .ok v => ({ w with env := v }, .returned)
    | .error e => (w, .panicked e)

/-- An acceptance check in the manner of httprouter: a pattern must begin with `/`, and
a method and pattern that are registered already conflict. -/
def sampleRule : Rule String :=
  fun method path table =>
    if path.data.head? ≠ some '/' then some (.custom "path must begin with /")
    else if table.any (fun e => e.method = method ∧ e.pattern = path) then
      some (.custom "a handle is already registered for path")
    else none

/-- No matcher allocated yet. -/
def noMatchers : Matchers String :=
  ⟨0, fun _ => []⟩

/-- A name that is not among the keys of `params` is looked up in the context the
parameters were added to. -/
theorem Value_foldl_of_not_mem (params : httprouter.Params) (c : context.Context) (n : String)
    (hn : n ∉ params.map (fun p => p.Key)) :
    (params.foldl (fun ctx p => context.Context.WithValue ctx ⟨p.Key⟩ (.str p.Value)) c).Value ⟨n⟩
      = c.Value ⟨n⟩ := by
  induction params generalizing c with
  | nil => rfl
  | cons p ps ih =>
    simp only [List.map_cons, List.mem_cons, not_or] at hn
    rw [List.foldl_cons, ih _ hn.2]
    have hne : (⟨p.Key⟩ : param) ≠ ⟨n⟩ := by
      intro h
      exact hn.1 (congrArg param.name h).symm
    simp [context.Context.Value, hne]

/-- With pairwise distinct names every parameter is bound to its own value. -/
theorem Value_foldl_of_nodup (params : httprouter.Params) (c : context.Context)
    (hd : (params.map (fun p => p.Key)).Nodup) (p : httprouter.Param) (hp : p ∈ params) :
    (params.foldl (fun ctx p => context.Context.WithValue ctx ⟨p.Key⟩ (.str p.Value)) c).Value
      ⟨p.Key⟩ = .str p.Value := by
  induction params generalizing c with
  | nil => simp at hp
  | cons q qs ih =>
    simp only [List.map_cons, List.nodup_cons] at hd
    rw [List.foldl_cons]
    rcases List.mem_cons.mp hp with h | h
    · subst h
      rw [Value_foldl_of_not_mem qs _ p.Key hd.1]
      simp [context.Context.Value]
    · exact ih _ hd.2 h

/-- `Param` on the wrapper's context yields the value of a parameter with distinct name. -/
theorem Param_withParams_of_nodup (params : httprouter.Params)
    (hd : (params.map (fun p => p.Key)).Nodup) (p : httprouter.Param) (hp : p ∈ params) :
    Param (some (withParams params)) p.Key = .ok p.Value := by
  unfold Param withParams
  simp only []
  rw [Value_foldl_of_nodup params _ hd p hp]

/-- `Param` on the wrapper's context panics with the failed type assertion for a name
that no parameter carries. -/
theorem Param_withParams_of_not_mem (params : httprouter.Params) (n : String)
    (hn : n ∉ params.map (fun p => p.Key)) :
    Param (some (withParams params)) n = .error .typeAssertion := by
  have hv : (withParams params).Value ⟨n⟩ = .nil := by
    unfold withParams
    rw [Value_foldl_of_not_mem params _ n hn]
    rfl
  simp only [Param]
  rw [hv]

/-! ## The wrapper on one goroutine -/

/-- C1: for parameters with pairwise distinct names and every parameter `p` of the
list: the wrapper built by `handle` runs the handler for `r` on the world in which
`r` is bound to the fresh context (its result is the handler's result on that world,
followed by the delete when the handler returned); in that world
`Param(Context(r), p.Key)` returns exactly `p.Value`; hence a handler that reads that
parameter is run, under the wrapper, as if it had been handed `p.Value`. -/
theorem handle_param_visible {σ : Type} (params : httprouter.Params)
    (hd : (params.map (fun p => p.Key)).Nodup) (p : httprouter.Param) (hp : p ∈ params)
    (r : Request) (w : World σ) :
    Param (Context { w with ctxts := mapSet w.ctxts r (withParams params) } r) p.Key
        = .ok p.Value
      ∧ (∀ k : Except Panic String → HandlerFunc σ,
          handle (fun q w1 => k (Param (Context w1 q) p.Key) q w1) r params w
            = handle (k (.ok p.Value)) r params w)
      ∧ (∀ h : HandlerFunc σ,
          handle h r params w
            = match h r { w with ctxts := mapSet w.ctxts r (withParams params) } with
              | (w2, .returned) => ({ w2 with ctxts := mapDelete w2.ctxts r }, .returned)
              | (w2, .panicked e) => (w2, .panicked e))
      ∧ (∀ k : Except Panic String → HandlerFunc σ,
          handle (fun q w1 => k (Param (Context w1 q) p.Key) q w1) r params w
            = match k (.ok p.Value) r
                { w with ctxts := mapSet w.ctxts r (withParams params) } with
              | (w2, .returned) => ({ w2 with ctxts := mapDelete w2.ctxts r }, .returned)
              | (w2, .panicked e) => (w2, .panicked e)) := by
  have hread : Param (Context { w with ctxts := mapSet w.ctxts r (withParams params) } r) p.Key
      = .ok p.Value := by
    simp only [Context, mapSet, if_true]
    exact Param_withParams_of_nodup params hd p hp
  refine ⟨hread, fun k => ?_, fun h => rfl, fun k => ?_⟩
  · simp only [handle]
    rw [hread]
  · simp only [handle]
    rw [hread]

/-- Witness for C1: route `/user/:username` requested as `/user/foo`, with the handler
of `TestRouterParam`: under the wrapper it reads `foo`, and the entry is gone
afterwards. -/
theorem handle_param_visible_witness :
    Param (Context { sampleWorld with
        ctxts := mapSet sampleWorld.ctxts 1 (withParams [⟨"username", "foo"⟩]) } 1) "username"
        = .ok "foo"
      ∧ handle (recordParam "username") 1 [⟨"username", "foo"⟩] sampleWorld
          = (⟨mapDelete (mapSet (fun _ => none) 1 (withParams [⟨"username", "foo"⟩])) 1,
              fun _ => "/", "foo"⟩, .returned) :=
  have key := handle_param_visible [⟨"username", "foo"⟩] (by decide) ⟨"username", "foo"⟩
    (by decide) 1 sampleWorld
  ⟨key.1, (key.2.2.1 (recordParam "username")).trans rfl⟩

/-- C5: create, invoke, delete. When the handler, run on the store in which `r` is
bound to the fresh context, returns normally and leaves the store as it found it,
then the entry for `r` exists when the handler is entered and when it returns, the
wrapper's result is the handler's result with the entry deleted, `Context(r)` is
absent afterwards, and the wrapper consults the handler on that store only. -/
theorem handle_create_invoke_delete {σ : Type} (h : HandlerFunc σ) (r : Request)
    (params : httprouter.Params) (w w2 : World σ)
    (hret : h r { w with ctxts := mapSet w.ctxts r (withParams params) } = (w2, .returned))
    (hro : w2.ctxts = mapSet w.ctxts r (withParams params)) :
    Context { w with ctxts := mapSet w.ctxts r (withParams params) } r
        = some (withParams params)
      ∧ Context w2 r = some (withParams params)
      ∧ handle h r params w = ({ w2 with ctxts := mapDelete w2.ctxts r }, .returned)
      ∧ Context (handle h r params w).1 r = none
      ∧ ∀ h2 : HandlerFunc σ,
          h2 r { w with ctxts := mapSet w.ctxts r (withParams params) }
              = h r { w with ctxts := mapSet w.ctxts r (withParams params) } →
            handle h2 r params w = handle h r params w := by
  have hrun : handle h r params w = ({ w2 with ctxts := mapDelete w2.ctxts r }, .returned) := by
    simp only [handle]
    rw [hret]
  refine ⟨by simp [Context, mapSet], by simp [Context, hro, mapSet], hrun, ?_, ?_⟩
  · rw [hrun]
    simp [Context, mapDelete]
  · intro h2 h2eq
    simp only [handle]
    rw [h2eq]

/-- Witness for C5: request 3 with parameter `id = 42` and a handler that copies the
path to `env`. -/
theorem handle_create_invoke_delete_witness :
    Context { sampleWorld with ctxts := mapSet sampleWorld.ctxts 3 (withParams [⟨"id", "42"⟩]) } 3
        = some (withParams [⟨"id", "42"⟩])
      ∧ handle recordPath 3 [⟨"id", "42"⟩] sampleWorld
          = (⟨mapDelete (mapSet (fun _ => none) 3 (withParams [⟨"id", "42"⟩])) 3,
              fun _ => "/", "/"⟩, .returned)
      ∧ Context (handle recordPath 3 [⟨"id", "42"⟩] sampleWorld).1 3 = none :=
  have key := handle_create_invoke_delete recordPath 3 [⟨"id", "42"⟩] sampleWorld
    ⟨mapSet (fun _ => none) 3 (withParams [⟨"id", "42"⟩]), fun _ => "/", "/"⟩ rfl rfl
  ⟨key.1, key.2.2.1, key.2.2.2.1⟩

/-- A handler that panics leaves the wrapper before the `delete`: whatever the handler
left in the store stays there. -/
theorem handle_of_panicked {σ : Type} (h : HandlerFunc σ) (r : Request)
    (params : httprouter.Params) (w w2 : World σ) (e : Panic)
    (hret : h r { w with ctxts := mapSet w.ctxts r (withParams params) } = (w2, .panicked e)) :
    handle h r params w = (w2, .panicked e) := by
  simp only [handle]
  rw [hret]

/-- C6, the code at the failing input: the handler of request 7 panics; when the wrapper
has finished, `Context(7)` is still the context the wrapper stored, not absent. -/
theorem handle_panic_leaks_entry :
    handle panicking 7 [⟨"id", "42"⟩] sampleWorld
        = (⟨mapSet (fun _ => none) 7 (withParams [⟨"id", "42"⟩]), fun _ => "/", ""⟩,
           .panicked (.custom "boom"))
      ∧ Context (handle panicking 7 [⟨"id", "42"⟩] sampleWorld).1 7
          = some (withParams [⟨"id", "42"⟩])
      ∧ Context (handle panicking 7 [⟨"id", "42"⟩] sampleWorld).1 7 ≠ none := by
  refine ⟨rfl, rfl, ?_⟩
  simp [handle, panicking, Context, mapSet]

/-- C10: frame property. When the handler returns normally and leaves the store as it
found it, every other request `q` has the same `Context(q)` while the handler runs
and after the wrapper as before, and the final store is the initial store with the
entry of `r` removed, whether or not it held one for `r`. -/
theorem handle_frame {σ : Type} (h : HandlerFunc σ) (r : Request)
    (params : httprouter.Params) (w w2 : World σ)
    (hret : h r { w with ctxts := mapSet w.ctxts r (withParams params) } = (w2, .returned))
    (hro : w2.ctxts = mapSet w.ctxts r (withParams params)) :
    (∀ q, q ≠ r →
        Context { w with ctxts := mapSet w.ctxts r (withParams params) } q = Context w q
          ∧ Context w2 q = Context w q
          ∧ Context (handle h r params w).1 q = Context w q)
      ∧ (handle h r params w).1.ctxts = mapDelete w.ctxts r
      ∧ (handle h r params w).1.path = w2.path
      ∧ (handle h r params w).1.env = w2.env
      ∧ (handle h r params w).2 = .returned := by
  have hrun : handle h r params w = ({ w2 with ctxts := mapDelete w2.ctxts r }, .returned) := by
    simp only [handle]
    rw [hret]
  rw [hrun]
  refine ⟨fun q hq => ?_, ?_, rfl, rfl, rfl⟩
  · simp [Context, hro, mapSet, mapDelete, hq]
  · funext q
    by_cases hq : q = r <;> simp [hro, mapSet, mapDelete, hq]

/-- Witness for C10: the store already binds request 3 (stale) and request 4. -/
theorem handle_frame_witness :
    (∀ q, q ≠ 3 →
        Context { sampleWorld with ctxts := mapSet staleStore 3 (withParams []) } q
          = Context { sampleWorld with ctxts := staleStore } q
        ∧ Context (⟨mapSet staleStore 3 (withParams []), fun _ => "/", "/"⟩ : World String) q
          = Context { sampleWorld with ctxts := staleStore } q
        ∧ Context (handle recordPath 3 [] { sampleWorld with ctxts := staleStore }).1 q
          = Context { sampleWorld with ctxts := staleStore } q)
      ∧ (handle recordPath 3 [] { sampleWorld with ctxts := staleStore }).1.ctxts
          = mapDelete staleStore 3 :=
  have key := handle_frame recordPath 3 [] { sampleWorld with ctxts := staleStore }
    ⟨mapSet staleStore 3 (withParams []), fun _ => "/", "/"⟩ rfl rfl
  ⟨key.1, key.2.1⟩

/-! ## The static file adapter -/

/-- C8: the handler returned by `FileServe(dir)` hands the request, with its path set to
the value bound to `filepath` in `Context(req)`, to the file server rooted at `dir`;
when `Param` panics (no context for `req`, or no `filepath` binding in it) the
handler panics with that panic and the world is the one it was given: the path is
as it was and the file server was not run. Under the wrapper, parameters with no
`filepath` give the failed type assertion, and parameters that bind `filepath` to
`v` make the file server run with path `v`. -/
theorem FileServe_delegates_or_fails {σ : Type} (rt : Router) (fs : String → HandlerFunc σ)
    (dir : String) (req : Request) (w : World σ) :
    (∀ v, Param (Context w req) "filepath" = .ok v →
        rt.FileServe fs dir req w
          = fs dir req { w with path := fun q => if q = req then v else w.path q })
      ∧ ((∀ c, Context w req = some c → c.Value ⟨"filepath"⟩ = .nil) →
        ∃ e, Param (Context w req) "filepath" = .error e
          ∧ rt.FileServe fs dir req w = (w, .panicked e))
      ∧ (∀ params : httprouter.Params, "filepath" ∉ params.map (fun p => p.Key) →
        handle (rt.FileServe fs dir) req params w
          = ({ w with ctxts := mapSet w.ctxts req (withParams params) },
             .panicked .typeAssertion))
      ∧ (∀ params : httprouter.Params, (params.map (fun p => p.Key)).Nodup →
        ∀ v, (⟨"filepath", v⟩ : httprouter.Param) ∈ params →
          handle (rt.FileServe fs dir) req params w
            = handle (fun q w1 => fs dir q
                { w1 with path := fun q2 => if q2 = q then v else w1.path q2 }) req params w) := by
  refine ⟨fun v hv => ?_, fun hnone => ?_, fun params hn => ?_, fun params hd v hv => ?_⟩
  · simp only [Router.FileServe]
    rw [hv]
  · cases hc : Context w req with
    | none =>
      refine ⟨.nilDereference, ?_, ?_⟩
      · simp [Param]
      · simp [Router.FileServe, hc, Param]
    | some c =>
      have hval := hnone c hc
      refine ⟨.typeAssertion, ?_, ?_⟩
      · simp only [Param]
        rw [hval]
      · simp only [Router.FileServe, hc, Param]
        rw [hval]
  · have herr := Param_withParams_of_not_mem params "filepath" hn
    simp only [handle, Router.FileServe, Context, mapSet, if_true]
    rw [herr]
  · have hok := Param_withParams_of_nodup params hd ⟨"filepath", v⟩ hv
    simp only [handle, Router.FileServe, Context, mapSet, if_true]
    simp only [] at hok
    rw [hok]

/-- Witness for C8: route `/static/*filepath` requested as `/static/img/a.png`, served
from `/srv/www`; and the same handler under a route without `filepath`. -/
theorem FileServe_delegates_or_fails_witness :
    Router.FileServe ⟨0, ""⟩ sampleFS "/srv/www" 5 staticWorld
        = (⟨staticWorld.ctxts, fun q => if q = 5 then "/img/a.png" else "/",
            "/srv/www/img/a.png"⟩, .returned)
      ∧ (∃ e, Param (Context sampleWorld 5) "filepath" = .error e
          ∧ Router.FileServe ⟨0, ""⟩ sampleFS "/srv/www" 5 sampleWorld
              = (sampleWorld, .panicked e))
      ∧ handle (Router.FileServe ⟨0, ""⟩ sampleFS "/srv/www") 5 [⟨"name", "a.png"⟩] sampleWorld
          = ({ sampleWorld with
                ctxts := mapSet sampleWorld.ctxts 5 (withParams [⟨"name", "a.png"⟩]) },
             .panicked .typeAssertion) :=
  ⟨((FileServe_delegates_or_fails ⟨0, ""⟩ sampleFS "/srv/www" 5 staticWorld).1 "/img/a.png"
      rfl).trans rfl,
   (FileServe_delegates_or_fails ⟨0, ""⟩ sampleFS "/srv/www" 5 sampleWorld).2.1
      (fun c hc => by simp [Context, sampleWorld] at hc),
   (FileServe_delegates_or_fails ⟨0, ""⟩ sampleFS "/srv/www" 5 sampleWorld).2.2.1
      [⟨"name", "a.png"⟩] (by decide)⟩

/-! ## Registration and prefixes -/

/-- A registration the matcher accepts appends one triple to the table at `rtr`, leaves
all other tables and the allocator alone, and returns. -/
theorem Handle_accepted {σ : Type} (rule : Rule σ) (m : Matchers σ) (rtr : Nat)
    (method path : String) (h : httprouter.Handle σ)
    (ha : rule method path (m.table rtr) = none) :
    (httprouter.Router.Handle rule m rtr method path h).1.table rtr
        = m.table rtr ++ [⟨method, path, h⟩]
      ∧ (∀ q, q ≠ rtr → (httprouter.Router.Handle rule m rtr method path h).1.table q = m.table q)
      ∧ (httprouter.Router.Handle rule m rtr method path h).1.next = m.next
      ∧ (httprouter.Router.Handle rule m rtr method path h).2 = .returned := by
  simp only [httprouter.Router.Handle, ha]
  exact ⟨by simp, fun q hq => by simp [hq], trivial, trivial⟩

/-- A registration the matcher rejects panics and registers nothing. -/
theorem Handle_rejected {σ : Type} (rule : Rule σ) (m : Matchers σ) (rtr : Nat)
    (method path : String) (h : httprouter.Handle σ) (e : Panic)
    (hr : rule method path (m.table rtr) = some e) :
    httprouter.Router.Handle rule m rtr method path h = (m, .panicked e) := by
  simp only [httprouter.Router.Handle, hr]

/-- C2, the claim at concrete inputs: on a fresh router whose matcher checks patterns in
the manner of httprouter, `Get("/GET", h)` registers one entry, but a second
`Get("/GET", h)` panics and registers none, and `Get("", h)` panics and registers
none: the table is not the old table with one triple appended. -/
theorem registration_rejected_by_matcher :
    ((Router.Get sampleRule (New noMatchers).2 "/GET" recordPath (New noMatchers).1).1.table
          0).map (fun e => (e.method, e.pattern)) = [("GET", "/GET")]
      ∧ (Router.Get sampleRule (New noMatchers).2 "/GET" recordPath
            (Router.Get sampleRule (New noMatchers).2 "/GET" recordPath (New noMatchers).1).1).2
          = .panicked (.custom "a handle is already registered for path")
      ∧ ¬ ((Router.Get sampleRule (New noMatchers).2 "/GET" recordPath
              (Router.Get sampleRule (New noMatchers).2 "/GET" recordPath
                (New noMatchers).1).1).1.table 0
            = (Router.Get sampleRule (New noMatchers).2 "/GET" recordPath
                (New noMatchers).1).1.table 0 ++ [⟨"GET", "/GET", handle recordPath⟩])
      ∧ (Router.Get sampleRule (New noMatchers).2 "" recordPath (New noMatchers).1).2
          = .panicked (.custom "path must begin with /")
      ∧ ¬ ((Router.Get sampleRule (New noMatchers).2 "" recordPath (New noMatchers).1).1.table 0
            = (New noMatchers).1.table 0 ++ [⟨"GET", "", handle recordPath⟩]) := by
  refine ⟨rfl, rfl, ?_, rfl, ?_⟩
  · intro h
    have hlen := congrArg List.length h
    revert hlen
    decide
  · intro h
    have hlen := congrArg List.length h
    revert hlen
    decide

/-- C2 as amended: each of `Get`, `Head`, `Options`, `Post`, `Put`, `Patch`, `Del` hands
the matcher of `r` one registration, under its own method, with the wrapped handler
and the pattern `r.prefix + p`, whose characters are those of the prefix followed by
those of `p`. When the matcher accepts it, exactly one triple with that method and
pattern is appended to its table, no other matcher changes, and the call returns;
when the matcher rejects it, the call panics with the matcher's panic and nothing
is registered. With prefix `/api/` the path `/GET` is handed over as `/api//GET`,
and with prefix `/api` as `/api/GET`, which is not `/GET`. -/
theorem registration_uses_prefix {σ : Type} (rule : Rule σ) (r : Router) (p : String)
    (h : HandlerFunc σ) (m : Matchers σ) :
    ((rule "GET" (r.prefix_ ++ p) (m.table r.rtr) = none →
          (Router.Get rule r p h m).1.table r.rtr
              = m.table r.rtr ++ [⟨"GET", r.prefix_ ++ p, handle h⟩]
            ∧ (∀ q, q ≠ r.rtr → (Router.Get rule r p h m).1.table q = m.table q)
            ∧ (Router.Get rule r p h m).2 = .returned)
        ∧ ∀ e, rule "GET" (r.prefix_ ++ p) (m.table r.rtr) = some e →
            Router.Get rule r p h m = (m, .panicked e))
      ∧ ((rule "HEAD" (r.prefix_ ++ p) (m.table r.rtr) = none →
          (Router.Head rule r p h m).1.table r.rtr
              = m.table r.rtr ++ [⟨"HEAD", r.prefix_ ++ p, handle h⟩]
            ∧ (∀ q, q ≠ r.rtr → (Router.Head rule r p h m).1.table q = m.table q)
            ∧ (Router.Head rule r p h m).2 = .returned)
        ∧ ∀ e, rule "HEAD" (r.prefix_ ++ p) (m.table r.rtr) = some e →
            Router.Head rule r p h m = (m, .panicked e))
      ∧ ((rule "OPTIONS" (r.prefix_ ++ p) (m.table r.rtr) = none →
          (Router.Options rule r p h m).1.table r.rtr
              = m.table r.rtr ++ [⟨"OPTIONS", r.prefix_ ++ p, handle h⟩]
            ∧ (∀ q, q ≠ r.rtr → (Router.Options rule r p h m).1.table q = m.table q)
            ∧ (Router.Options rule r p h m).2 = .returned)
        ∧ ∀ e, rule "OPTIONS" (r.prefix_ ++ p) (m.table r.rtr) = some e →
            Router.Options rule r p h m = (m, .panicked e))
      ∧ ((rule "POST" (r.prefix_ ++ p) (m.table r.rtr) = none →
          (Router.Post rule r p h m).1.table r.rtr
              = m.table r.rtr ++ [⟨"POST", r.prefix_ ++ p, handle h⟩]
            ∧ (∀ q, q ≠ r.rtr → (Router.Post rule r p h m).1.table q = m.table q)
            ∧ (Router.Post rule r p h m).2 = .returned)
        ∧ ∀ e, rule "POST" (r.prefix_ ++ p) (m.table r.rtr) = some e →
            Router.Post rule r p h m = (m, .panicked e))
      ∧ ((rule "PUT" (r.prefix_ ++ p) (m.table r.rtr) = none →
          (Router.Put rule r p h m).1.table r.rtr
              = m.table r.rtr ++ [⟨"PUT", r.prefix_ ++ p, handle h⟩]
            ∧ (∀ q, q ≠ r.rtr → (Router.Put rule r p h m).1.table q = m.table q)
            ∧ (Router.Put rule r p h m).2 = .returned)
        ∧ ∀ e, rule "PUT" (r.prefix_ ++ p) (m.table r.rtr) = some e →
            Router.Put rule r p h m = (m, .panicked e))
      ∧ ((rule "PATCH" (r.prefix_ ++ p) (m.table r.rtr) = none →
          (Router.Patch rule r p h m).1.table r.rtr
              = m.table r.rtr ++ [⟨"PATCH", r.prefix_ ++ p, handle h⟩]
            ∧ (∀ q, q ≠ r.rtr → (Router.Patch rule r p h m).1.table q = m.table q)
            ∧ (Router.Patch rule r p h m).2 = .returned)
        ∧ ∀ e, rule "PATCH" (r.prefix_ ++ p) (m.table r.rtr) = some e →
            Router.Patch rule r p h m = (m, .panicked e))
      ∧ ((rule "DELETE" (r.prefix_ ++ p) (m.table r.rtr) = none →
          (Router.Del rule r p h m).1.table r.rtr
              = m.table r.rtr ++ [⟨"DELETE", r.prefix_ ++ p, handle h⟩]
            ∧ (∀ q, q ≠ r.rtr → (Router.Del rule r p h m).1.table q = m.table q)
            ∧ (Router.Del rule r p h m).2 = .returned)
        ∧ ∀ e, rule "DELETE" (r.prefix_ ++ p) (m.table r.rtr) = some e →
            Router.Del rule r p h m = (m, .panicked e))
      ∧ (r.prefix_ ++ p).data = r.prefix_.data ++ p.data
      ∧ (r.prefix_ ++ p).length = r.prefix_.length + p.length
      ∧ (rule "GET" "/api//GET" (m.table r.rtr) = none →
          ((Router.Get rule ⟨r.rtr, "/api/"⟩ "/GET" h m).1.table r.rtr).map (fun e => e.pattern)
            = (m.table r.rtr).map (fun e => e.pattern) ++ ["/api//GET"])
      ∧ (rule "GET" "/api/GET" [] = none →
          ((Router.Get rule ((New m).2.WithPrefix "/api") "/GET" h (New m).1).1.table
              (New m).2.rtr).map (fun e => (e.method, e.pattern)) = [("GET", "/api/GET")])
      ∧ "/api/GET" ≠ "/GET" := by
  have acc : ∀ meth : String, rule meth (r.prefix_ ++ p) (m.table r.rtr) = none →
      (httprouter.Router.Handle rule m r.rtr meth (r.prefix_ ++ p) (handle h)).1.table r.rtr
          = m.table r.rtr ++ [⟨meth, r.prefix_ ++ p, handle h⟩]
        ∧ (∀ q, q ≠ r.rtr →
            (httprouter.Router.Handle rule m r.rtr meth (r.prefix_ ++ p) (handle h)).1.table q
              = m.table q)
        ∧ (httprouter.Router.Handle rule m r.rtr meth (r.prefix_ ++ p) (handle h)).2
            = .returned :=
    fun meth ha =>
      ⟨(Handle_accepted rule m r.rtr meth (r.prefix_ ++ p) (handle h) ha).1,
        (Handle_accepted rule m r.rtr meth (r.prefix_ ++ p) (handle h) ha).2.1,
        (Handle_accepted rule m r.rtr meth (r.prefix_ ++ p) (handle h) ha).2.2.2⟩
  have rej : ∀ (meth : String) (e : Panic),
      rule meth (r.prefix_ ++ p) (m.table r.rtr) = some e →
      httprouter.Router.Handle rule m r.rtr meth (r.prefix_ ++ p) (handle h)
        = (m, .panicked e) :=
    fun meth e hr => Handle_rejected rule m r.rtr meth (r.prefix_ ++ p) (handle h) e hr
  refine ⟨⟨acc "GET", rej "GET"⟩, ⟨acc "HEAD", rej "HEAD"⟩, ⟨acc "OPTIONS", rej "OPTIONS"⟩,
    ⟨acc "POST", rej "POST"⟩, ⟨acc "PUT", rej "PUT"⟩, ⟨acc "PATCH", rej "PATCH"⟩,
    ⟨acc "DELETE", rej "DELETE"⟩,
    String.data_append _ _, String.length_append _ _, fun ha => ?_, fun ha => ?_, by decide⟩
  · have hacc : rule "GET" ("/api/" ++ "/GET") (m.table r.rtr) = none := ha
    rw [Router.Get, httprouter.Router.GET,
      (Handle_accepted rule m r.rtr "GET" _ (handle h) hacc).1]
    simp only [List.map_append, List.map_cons, List.map_nil]
    rfl
  · have hacc : rule "GET" ("" ++ "/api" ++ "/GET") ((New m).1.table m.next) = none := by
      simp only [New, httprouter.New, if_true]
      exact ha
    simp only [Router.Get, httprouter.Router.GET, Router.WithPrefix]
    have hrt : (New m).2.rtr = m.next := rfl
    have hpf : (New m).2.prefix_ = "" := rfl
    rw [hrt, hpf, (Handle_accepted rule (New m).1 m.next "GET" _ (handle h) hacc).1]
    simp [New, httprouter.New]

/-- Witness for C2: on a fresh router with prefix `/api` and a matcher that checks in the
manner of httprouter, `Get("/GET")` is accepted and registered as `/api/GET`; a
pattern that does not begin with `/` is rejected and nothing is registered. -/
theorem registration_uses_prefix_witness :
    ((Router.Get sampleRule ((New noMatchers).2.WithPrefix "/api") "/GET" recordPath
          (New noMatchers).1).1.table 0).map (fun e => (e.method, e.pattern))
        = [("GET", "/api/GET")]
      ∧ Router.Post sampleRule ((New noMatchers).2.WithPrefix "api") "/POST" recordPath
          (New noMatchers).1
        = ((New noMatchers).1, .panicked (.custom "path must begin with /")) :=
  have acc := registration_uses_prefix sampleRule (New noMatchers).2 "/GET" recordPath noMatchers
  have rej := registration_uses_prefix sampleRule ((New noMatchers).2.WithPrefix "api") "/POST"
    recordPath (New noMatchers).1
  ⟨acc.2.2.2.2.2.2.2.2.2.2.1 rfl, rej.2.2.2.1.2 _ rfl⟩

/-- C3: `WithPrefix` returns a router with the receiver's matcher reference and the
prefix `r.prefix + x`; the receiver is a value the function does not alter, and a
route registered through the derived router, when the matcher accepts it, lands in
the table of the receiver's matcher. -/
theorem WithPrefix_shares_matcher {σ : Type} (r : Router) (x : String) :
    (r.WithPrefix x).rtr = r.rtr
      ∧ (r.WithPrefix x).prefix_ = r.prefix_ ++ x
      ∧ (r.WithPrefix x).prefix_.data = r.prefix_.data ++ x.data
      ∧ ∀ (rule : Rule σ) (p : String) (h : HandlerFunc σ) (m : Matchers σ),
          rule "GET" (r.prefix_ ++ x ++ p) (m.table r.rtr) = none →
          (Router.Get rule (r.WithPrefix x) p h m).1.table r.rtr
            = m.table r.rtr ++ [⟨"GET", r.prefix_ ++ x ++ p, handle h⟩] := by
  refine ⟨rfl, rfl, String.data_append _ _, fun rule p h m ha => ?_⟩
  exact (Handle_accepted rule m r.rtr "GET" _ (handle h) ha).1

/-- Witness for C3: the sub-router `/api` of a fresh router and the route `/GET`. -/
theorem WithPrefix_shares_matcher_witness :
    ((New noMatchers).2.WithPrefix "/api").rtr = (New noMatchers).2.rtr
      ∧ ((New noMatchers).2.WithPrefix "/api").prefix_ = "/api"
      ∧ ((Router.Get sampleRule ((New noMatchers).2.WithPrefix "/api") "/GET" recordPath
            (New noMatchers).1).1.table 0).map (fun e => (e.method, e.pattern))
          = [("GET", "/api/GET")] :=
  have key := @WithPrefix_shares_matcher String (New noMatchers).2 "/api"
  ⟨key.1, key.2.1, (congrArg (List.map fun e => (e.method, e.pattern))
    (key.2.2.2 sampleRule "/GET" recordPath (New noMatchers).1 rfl)).trans rfl⟩

/-- Deriving sub-routers through a list of prefixes keeps the matcher and appends the
prefixes from left to right. -/
theorem foldl_WithPrefix (xs : List String) (r : Router) :
    (xs.foldl Router.WithPrefix r).rtr = r.rtr
      ∧ (xs.foldl Router.WithPrefix r).prefix_ = xs.foldl (fun acc x => acc ++ x) r.prefix_ := by
  induction xs generalizing r with
  | nil => exact ⟨rfl, rfl⟩
  | cons x xs ih =>
    rw [List.foldl_cons, List.foldl_cons]
    exact ⟨(ih _).1, (ih _).2⟩

/-- C4, the claim at concrete inputs: on a fresh router whose matcher checks patterns in
the manner of httprouter, `WithPrefix("/a").WithPrefix("/b").Get("/x")` registers
`/a/b/x`; registering `/x` on it once more panics and registers nothing, and so does
`WithPrefix("a").WithPrefix("/b").Get("/x")`, whose effective pattern `a/b/x` the
matcher rejects. -/
theorem composed_registration_rejected :
    ((Router.Get sampleRule (((New noMatchers).2.WithPrefix "/a").WithPrefix "/b") "/x"
          recordPath (New noMatchers).1).1.table 0).map (fun e => (e.method, e.pattern))
        = [("GET", "/a/b/x")]
      ∧ (Router.Get sampleRule (((New noMatchers).2.WithPrefix "/a").WithPrefix "/b") "/x"
            recordPath
            (Router.Get sampleRule (((New noMatchers).2.WithPrefix "/a").WithPrefix "/b") "/x"
              recordPath (New noMatchers).1).1).2
          = .panicked (.custom "a handle is already registered for path")
      ∧ ¬ ((Router.Get sampleRule (((New noMatchers).2.WithPrefix "/a").WithPrefix "/b") "/x"
              recordPath
              (Router.Get sampleRule (((New noMatchers).2.WithPrefix "/a").WithPrefix "/b")
                "/x" recordPath (New noMatchers).1).1).1.table 0
            = (Router.Get sampleRule (((New noMatchers).2.WithPrefix "/a").WithPrefix "/b")
                "/x" recordPath (New noMatchers).1).1.table 0
              ++ [⟨"GET", "/a/b/x", handle recordPath⟩])
      ∧ Router.Get sampleRule (((New noMatchers).2.WithPrefix "a").WithPrefix "/b") "/x"
            recordPath (New noMatchers).1
          = ((New noMatchers).1, .panicked (.custom "path must begin with /"))
      ∧ ¬ ((Router.Get sampleRule (((New noMatchers).2.WithPrefix "a").WithPrefix "/b") "/x"
              recordPath (New noMatchers).1).1.table 0
            = (New noMatchers).1.table 0 ++ [⟨"GET", "a/b/x", handle recordPath⟩]) := by
  refine ⟨rfl, rfl, ?_, rfl, ?_⟩
  · intro h
    have hlen := congrArg List.length h
    revert hlen
    decide
  · intro h
    have hlen := congrArg List.length h
    revert hlen
    decide

/-- C4 as amended: sub-router prefixes compose. `r.WithPrefix(a).WithPrefix(b)` is the
router `r.WithPrefix(a + b)`; registering `p` on it hands the matcher of `r` the
pattern `r.prefix + a + b + p`, which is added to its table when the matcher accepts
it, while a rejection panics and registers nothing; on a fresh router, `/a` then
`/b` hands over `/a/b` + p; and a chain of any length keeps the matcher and appends
all prefixes in order. -/
theorem WithPrefix_compose {σ : Type} (rule : Rule σ) (r : Router) (a b p : String)
    (h : HandlerFunc σ) (m : Matchers σ) :
    (r.WithPrefix a).WithPrefix b = r.WithPrefix (a ++ b)
      ∧ (rule "GET" (r.prefix_ ++ a ++ b ++ p) (m.table r.rtr) = none →
          (Router.Get rule ((r.WithPrefix a).WithPrefix b) p h m).1.table r.rtr
              = m.table r.rtr ++ [⟨"GET", r.prefix_ ++ a ++ b ++ p, handle h⟩]
            ∧ (Router.Get rule ((r.WithPrefix a).WithPrefix b) p h m).2 = .returned)
      ∧ (∀ e, rule "GET" (r.prefix_ ++ a ++ b ++ p) (m.table r.rtr) = some e →
          Router.Get rule ((r.WithPrefix a).WithPrefix b) p h m = (m, .panicked e))
      ∧ (rule "GET" ("/a/b" ++ p) [] = none →
          (Router.Get rule (((New m).2.WithPrefix "/a").WithPrefix "/b") p h (New m).1).1.table
            (New m).2.rtr = [⟨"GET", "/a/b" ++ p, handle h⟩])
      ∧ (∀ e, rule "GET" ("/a/b" ++ p) [] = some e →
          Router.Get rule (((New m).2.WithPrefix "/a").WithPrefix "/b") p h (New m).1
            = ((New m).1, .panicked e))
      ∧ ∀ xs : List String,
          (xs.foldl Router.WithPrefix r).rtr = r.rtr
            ∧ (xs.foldl Router.WithPrefix r).prefix_
                = xs.foldl (fun acc x => acc ++ x) r.prefix_ := by
  have hfresh : ("" : String) ++ "/a" ++ "/b" ++ p = "/a/b" ++ p := by
    rw [String.empty_append]
    rfl
  refine ⟨?_, fun ha => ?_, fun e hr => ?_, fun ha => ?_, fun e hr => ?_,
    fun xs => foldl_WithPrefix xs r⟩
  · simp [Router.WithPrefix, String.append_assoc]
  · exact ⟨(Handle_accepted rule m r.rtr "GET" _ (handle h) ha).1,
      (Handle_accepted rule m r.rtr "GET" _ (handle h) ha).2.2.2⟩
  · exact Handle_rejected rule m r.rtr "GET" _ (handle h) e hr
  · have hacc : rule "GET" ("" ++ "/a" ++ "/b" ++ p) ((New m).1.table m.next) = none := by
      rw [hfresh]
      simp only [New, httprouter.New, if_true]
      exact ha
    have key := (Handle_accepted rule (New m).1 m.next "GET" _ (handle h) hacc).1
    rw [hfresh] at key
    simp only [New, httprouter.New, if_true, List.nil_append] at key
    simp only [Router.Get, httprouter.Router.GET, Router.WithPrefix, New, httprouter.New]
    rw [hfresh]
    exact key
  · have hrej : rule "GET" ("" ++ "/a" ++ "/b" ++ p) ((New m).1.table m.next) = some e := by
      rw [hfresh]
      simp only [New, httprouter.New, if_true]
      exact hr
    exact Handle_rejected rule (New m).1 m.next "GET" _ (handle h) e hrej

/-- Witness for C4: `/a` then `/b` on a fresh router, route `/x`. -/
theorem WithPrefix_compose_witness :
    ((Router.Get sampleRule (((New noMatchers).2.WithPrefix "/a").WithPrefix "/b") "/x"
          recordPath (New noMatchers).1).1.table 0).map (fun e => (e.method, e.pattern))
        = [("GET", "/a/b/x")]
      ∧ Router.Get sampleRule (((New noMatchers).2.WithPrefix "a").WithPrefix "/b") "/x"
          recordPath (New noMatchers).1
        = ((New noMatchers).1, .panicked (.custom "path must begin with /")) :=
  ⟨(congrArg (List.map fun e => (e.method, e.pattern))
      ((WithPrefix_compose sampleRule (New noMatchers).2 "/a" "/b" "/x" recordPath
        noMatchers).2.2.2.1 rfl)).trans rfl,
   (WithPrefix_compose sampleRule (New noMatchers).2 "a" "/b" "/x" recordPath
      (New noMatchers).1).2.2.1 _ rfl⟩

/-! ## Concurrent dispatch -/

end router
